import Mathlib

/-!
Shallow embedding of the three-particles GPU particle engine
(src/core/ComputePipeline.ts, src/core/GPUSorter.ts, src/core/TrailRenderer.ts,
GPUParticleSystem.update).  Shader floats are modelled as rationals; the TSL
hash-based random source is an opaque parameter; per-slot compute lanes are
modelled as pure per-index functions.
-/

/-- 3-component vector of rationals (models vec3 of f32). -/
structure Vec3 where
  x : ℚ
  y : ℚ
  z : ℚ
deriving DecidableEq, Repr

def Vec3.add (a b : Vec3) : Vec3 := ⟨a.x + b.x, a.y + b.y, a.z + b.z⟩

def Vec3.sub (a b : Vec3) : Vec3 := ⟨a.x - b.x, a.y - b.y, a.z - b.z⟩

def Vec3.smul (s : ℚ) (a : Vec3) : Vec3 := ⟨s * a.x, s * a.y, s * a.z⟩

def Vec3.dot (a b : Vec3) : ℚ := a.x * b.x + a.y * b.y + a.z * b.z

instance : Add Vec3 := ⟨Vec3.add⟩

instance : SMul ℚ Vec3 := ⟨Vec3.smul⟩

/-- Per-slot particle state: the structure-of-arrays storage
(positions, velocities, ages buffer holding spawn times, lifetimes)
restricted to one slot.  The buffer named `ages` in StorageManager stores the
absolute spawn time; age is always derived as `time - spawnTime`. -/
structure Particle where
  pos : Vec3
  vel : Vec3
  spawnTime : ℚ
  lifetime : ℚ
deriving DecidableEq, Repr

/-- Spawn-control uniforms of ComputePipeline
(uSpawnCount, uSpawnOffset, uSpawnVelocity, uSpawnVelocityVariation,
uSpawnLifetime, uEmitterSize). -/
structure SpawnUniforms where
  spawnCount : ℤ
  spawnOffset : ℤ
  spawnVelocity : Vec3
  velocityVariation : Vec3
  spawnLifetime : ℚ
  emitterSize : Vec3

/-- Provider context handed to TSL node builders (ComputePipeline lines
197-206).  The `age` field is bound to the spawn-time storage element in the
source (a naming slip there; the value passed is the spawn time). -/
structure ProviderContext where
  position : Vec3
  velocity : Vec3
  age : ℚ
  lifetime : ℚ
  index : ℤ
  delta : ℚ
  time : ℚ

/-- A registered particle provider: priority plus optional force /
velocity-modifier / position-modifier node builders (BaseProvider protocol). -/
structure ParticleProvider where
  name : String
  priority : ℤ
  getForceNode : Option (ProviderContext → Vec3)
  getVelocityModifierNode : Option (ProviderContext → Vec3)
  getPositionModifierNode : Option (ProviderContext → Vec3)

/-- Stable insertion used to model `Array.prototype.sort` (stable per
ECMAScript) with comparator `(a, b) => (a.priority || 0) - (b.priority || 0)`:
the inserted (later-registered) element goes after all elements of
less-or-equal priority. -/
def insertByPriority (p : ParticleProvider) :
    List ParticleProvider → List ParticleProvider
  | [] => [p]
  | q :: qs =>
    if p.priority < q.priority then p :: q :: qs else q :: insertByPriority p qs

/-- Stable sort by ascending priority (model of the JS stable sort in
ComputePipeline.addProvider). -/
def sortByPriority (l : List ParticleProvider) : List ParticleProvider :=
  l.foldl (fun acc p => insertByPriority p acc) []

/-- ComputePipeline.addProvider: push the provider, then stable-sort the list
by ascending priority. -/
def addProvider (l : List ParticleProvider) (p : ParticleProvider) :
    List ParticleProvider :=
  sortByPriority (l ++ [p])

/-- Spawn test (ComputePipeline lines 158-159):
`indexInSpawnRange = (i - spawnOffset) mod maxParticles` and the slot is
selected iff `indexInSpawnRange < spawnCount`.  In the generated shader
`instanceIndex` is a u32 and the int operands are converted to the common
unsigned type, so the subtraction wraps modulo 2^32 before the
`% maxParticles` is taken: the computed index is
((i - spawnOffset) mod 2^32) mod maxParticles, which coincides with
(i - spawnOffset) mod maxParticles only when maxParticles divides 2^32. -/
def spawnSelected (maxParticles spawnOffset spawnCount i : ℤ) : Bool :=
  decide (((i - spawnOffset) % 4294967296) % maxParticles < spawnCount)

/-- Spawn step for one slot (ComputePipeline lines 161-191).  `hash` is the
opaque TSL `hash` PRNG; the seed is `i + toInt(time * 1000)`. -/
def spawnStep (u : SpawnUniforms) (hash : ℤ → ℚ) (time : ℚ)
    (maxParticles i : ℤ) (p : Particle) : Particle :=
  if spawnSelected maxParticles u.spawnOffset u.spawnCount i then
    let seed := i + ⌊time * 1000⌋
    let randX := hash seed * 2 - 1
    let randY := hash (seed + 1) * 2 - 1
    let randZ := hash (seed + 2) * 2 - 1
    let randVelX := hash (seed + 3) * 2 - 1
    let randVelY := hash (seed + 4) * 2 - 1
    let randVelZ := hash (seed + 5) * 2 - 1
    { pos := ⟨randX * u.emitterSize.x, randY * u.emitterSize.y,
              randZ * u.emitterSize.z⟩,
      vel := u.spawnVelocity +
        ⟨randVelX * u.velocityVariation.x, randVelY * u.velocityVariation.y,
         randVelZ * u.velocityVariation.z⟩,
      spawnTime := time,
      lifetime := u.spawnLifetime }
  else p

/-- Liveness test (ComputePipeline line 194):
`isAlive = age >= 0 && age < lifetime` with `age = time - spawnTime`,
evaluated on the storage values current at that point of the pass. -/
def isAlive (time : ℚ) (p : Particle) : Bool :=
  decide (0 ≤ time - p.spawnTime) && decide (time - p.spawnTime < p.lifetime)

/-- Force accumulation (ComputePipeline lines 209-222): start from gravity,
then add every provider's force node contribution in list (priority) order.
All force nodes read the same pre-update position/velocity storage. -/
def accumulateForces (providers : List ParticleProvider)
    (ctx : ProviderContext) (gravity : Vec3) : Vec3 :=
  providers.foldl
    (fun acc pr =>
      match pr.getForceNode with
      | some f => acc + f ctx
      | none => acc)
    gravity

/-- Velocity modifiers (ComputePipeline lines 227-235): each provider's
modifier node, when present, is assigned over the running velocity in list
order; its context reads the current storage values. -/
def applyVelocityModifiers (providers : List ParticleProvider)
    (pos : Vec3) (i : ℤ) (spawnTime lifetime delta time : ℚ)
    (vel : Vec3) : Vec3 :=
  providers.foldl
    (fun v pr =>
      match pr.getVelocityModifierNode with
      | some m => m ⟨pos, v, spawnTime, lifetime, i, delta, time⟩
      | none => v)
    vel

/-- Position modifiers (ComputePipeline lines 244-251): assigned over the
running position in list order, after integration. -/
def applyPositionModifiers (providers : List ParticleProvider)
    (vel : Vec3) (i : ℤ) (spawnTime lifetime delta time : ℚ)
    (pos : Vec3) : Vec3 :=
  providers.foldl
    (fun q pr =>
      match pr.getPositionModifierNode with
      | some m => m ⟨q, vel, spawnTime, lifetime, i, delta, time⟩
      | none => q)
    pos

/-- Physics body of the alive branch (ComputePipeline lines 196-252):
force accumulation, velocity kick, velocity overrides, drag, integration,
position overrides.  Only pos and vel are written. -/
def physicsStep (providers : List ParticleProvider) (gravity : Vec3)
    (drag delta time : ℚ) (i : ℤ) (p : Particle) : Particle :=
  let ctx : ProviderContext :=
    ⟨p.pos, p.vel, p.spawnTime, p.lifetime, i, delta, time⟩
  let totalForce := accumulateForces providers ctx gravity
  let vel1 := p.vel + delta • totalForce
  let vel2 := applyVelocityModifiers providers p.pos i p.spawnTime p.lifetime
    delta time vel1
  let vel3 := (1 - drag * delta) • vel2
  let pos1 := p.pos + delta • vel3
  let pos2 := applyPositionModifiers providers vel3 i p.spawnTime p.lifetime
    delta time pos1
  { p with pos := pos2, vel := vel3 }

/-- One compute-pass lane (ComputePipeline.buildUpdateComputeNode, lines
145-253): spawn step first, then the liveness test on the possibly
just-written spawnTime/lifetime, then physics for live slots only. -/
def updateSlot (providers : List ParticleProvider) (gravity : Vec3)
    (drag : ℚ) (u : SpawnUniforms) (hash : ℤ → ℚ) (time delta : ℚ)
    (maxParticles i : ℤ) (p : Particle) : Particle :=
  let p1 := spawnStep u hash time maxParticles i p
  if isAlive time p1 then
    physicsStep providers gravity drag delta time i p1
  else
    p1

/-!  Sorter definitions.

GPUSorter (src/core/GPUSorter.ts).  Sort keys are f32 distances that can
be +Infinity for padding slots, modelled as `WithTop ℚ`. -/

/-- Sort key type: a rational, or top for the +Infinity sentinel. -/
abbrev SortKey := WithTop ℚ

/-- Distance pass keys (GPUSorter.buildDistanceComputeNode lines 123-140):
valid slots get the negated squared camera distance, padding slots get
+Infinity. -/
def distanceKey (maxParticles : ℕ) (posf : ℕ → Vec3) (camPos : Vec3)
    (i : ℕ) : SortKey :=
  if i < maxParticles then
    ((-(Vec3.dot (Vec3.sub (posf i) camPos) (Vec3.sub (posf i) camPos)) : ℚ) :
      SortKey)
  else
    (⊤ : SortKey)

/-- Per-destination-slot result of one bitonic pass
(GPUSorter.buildBitonicPassNode lines 194-253), with the duplicate write to
the higher pair slot resolved in favour of the comparing (lower) lane.
The lower lane of each pair computes the direction from its own position in
its stage section, compares the distances of the two indices read from the
source buffer, and writes both outputs; the higher slot here receives the
lower lane's partner output. -/
def bitonicPassOut (dist : ℕ → SortKey) (stageSize stepSize : ℕ)
    (src : List ℕ) (i : ℕ) : ℕ :=
  let partner := i ^^^ stepSize
  let lo := min i partner
  let hi := max i partner
  let indexInSection := lo &&& (stageSize - 1)
  let halfSection := stageSize / 2
  let ascending := indexInSection < halfSection
  let idxI := src.getD lo 0
  let idxPartner := src.getD hi 0
  let distI := dist idxI
  let distPartner := dist idxPartner
  let needsSwap := if ascending then distPartner < distI else distI < distPartner
  if i = lo then (if needsSwap then idxPartner else idxI)
  else (if needsSwap then idxI else idxPartner)

/-- One full bitonic pass over the padded size. -/
def bitonicPassFn (dist : ℕ → SortKey) (stageSize stepSize paddedSize : ℕ)
    (src : List ℕ) : List ℕ :=
  (List.range paddedSize).map (bitonicPassOut dist stageSize stepSize src)

/-- Ping-pong state of the sorter: the two index buffers and the
uUseBufferA flag (1 = read from A, write to B). -/
structure SortState where
  bufA : List ℕ
  bufB : List ℕ
  useA : Bool
deriving DecidableEq, Repr

/-- Execute one pass (GPUSorter.executeBitonicSort loop body lines 161-178):
read from the buffer selected by useA, write the other, toggle the flag. -/
def execPass (dist : ℕ → SortKey) (paddedSize : ℕ) (st : SortState)
    (pass : ℕ × ℕ) : SortState :=
  let src := if st.useA then st.bufA else st.bufB
  let out := bitonicPassFn dist pass.1 pass.2 paddedSize src
  { bufA := if st.useA then st.bufA else out,
    bufB := if st.useA then out else st.bufB,
    useA := !st.useA }

/-- The (stageSize, stepSize) schedule of GPUSorter.executeBitonicSort
lines 155-159: stage = 0..numStages-1 with stageSize 2^(stage+1), step from
stage down to 0 with stepSize 2^step. -/
def passList (numStages : ℕ) : List (ℕ × ℕ) :=
  (List.range numStages).flatMap
    (fun s => ((List.range (s + 1)).reverse).map (fun j => (2 ^ (s + 1), 2 ^ j)))

/-- Run all bitonic passes from a given ping-pong state. -/
def execBitonicSort (dist : ℕ → SortKey) (paddedSize numStages : ℕ)
    (st : SortState) : SortState :=
  (passList numStages).foldl (execPass dist paddedSize) st

/-- State after construction (GPUSorter constructor lines 55-60) and the
distance pass (which assigns indicesA[i] = i for every i < paddedSize,
lines 127): bufA is the identity, bufB keeps its construction values
(i for valid slots, 0xFFFFFFFF for padding), useA = true. -/
def initSortState (maxParticles paddedSize : ℕ) : SortState :=
  { bufA := List.range paddedSize,
    bufB := (List.range paddedSize).map
      (fun i => if i < maxParticles then i else 4294967295),
    useA := true }

/-- GPUSorter.getTotalPasses (lines 279-282) with numStages = log2(P). -/
def getTotalPasses (numStages : ℕ) : ℕ := numStages * (numStages + 1) / 2

/-- Which physical buffer. -/
inductive Buf
  | A
  | B
deriving DecidableEq, Repr

/-- GPUSorter.getSortedIndicesBuffer (lines 261-266): buffer A when the total
pass count is even, buffer B when it is odd. -/
def getSortedIndicesBuffer (numStages : ℕ) : Buf :=
  if getTotalPasses numStages % 2 = 0 then Buf.A else Buf.B

/-- The buffer the next pass would write from a given state
(useA = true means read A, write B). -/
def writeTarget (st : SortState) : Buf := if st.useA then Buf.B else Buf.A

/-- Project a buffer name to its contents. -/
def SortState.buffer (st : SortState) : Buf → List ℕ
  | Buf.A => st.bufA
  | Buf.B => st.bufB

/-- Number of lanes of one bitonic pass that write a given destination slot:
lane i writes slots i and i XOR stepSize when its partner is greater
(If branch, lines 233-239), and only slot i otherwise (copy-through Else
branch, lines 240-252). -/
def laneWriteTargets (stepSize i : ℕ) : List ℕ :=
  if i < i ^^^ stepSize then [i, i ^^^ stepSize] else [i]

/-- How many lanes (of the paddedSize-many) write destination slot d. -/
def slotWriterCount (paddedSize stepSize d : ℕ) : ℕ :=
  ((Finset.range paddedSize).filter
    (fun i => d ∈ laneWriteTargets stepSize i)).card

/-- Executable check that a list of sort keys is non-decreasing in adjacent
positions. -/
def sortKeysMonotone : List SortKey → Bool
  | [] => true
  | [_] => true
  | a :: b :: rest => decide (a ≤ b) && sortKeysMonotone (b :: rest)

/-!  TrailRenderer (src/core/TrailRenderer.ts, buildTrailUpdateCompute
lines 243-273): per-particle position-history ring. -/

/-- Trail state of one particle: head index plus the ring of `segments`
position samples. -/
structure TrailState where
  head : ℕ
  ring : ℕ → Vec3

/-- One sampling tick (TrailRenderer lines 254-272): newHead =
(head + 1) mod segments, write the current particle position at the new head
slot, store the new head. -/
def trailTick (segments : ℕ) (currentPos : Vec3) (st : TrailState) :
    TrailState :=
  let newHead := (st.head + 1) % segments
  { head := newHead,
    ring := fun j => if j = newHead then currentPos else st.ring j }

/-- Iterate sampling ticks over a list of sampled positions. -/
def trailTicks (segments : ℕ) (ps : List Vec3) (st : TrailState) :
    TrailState :=
  ps.foldl (fun s p => trailTick segments p s) st

/-- The ring slot written by each successive tick. -/
def trailWriteTargets (segments : ℕ) (ps : List Vec3) (st : TrailState) :
    List ℕ :=
  match ps with
  | [] => []
  | p :: rest =>
    ((st.head + 1) % segments) :: trailWriteTargets segments rest
      (trailTick segments p st)

/-!  GPUParticleSystem host side (update method and stats). -/

/-- Host-side stats (GPUParticleSystem.update lines 651-657): alive count is
estimated as floor(min(emissionRate * lifetime, maxParticles)) with lifetime
falling back to 2.0 when falsy, dead count is the capacity minus that. -/
structure ParticleStats where
  aliveParticles : ℤ
  deadParticles : ℤ
deriving DecidableEq, Repr

/-- The stats computation of GPUParticleSystem.update. -/
def updateStats (emissionRate lifetime : ℚ) (maxParticles : ℤ) :
    ParticleStats :=
  let estimatedAlive :=
    min (emissionRate * (if lifetime = 0 then 2 else lifetime))
      ((maxParticles : ℚ))
  { aliveParticles := ⌊estimatedAlive⌋,
    deadParticles := maxParticles - ⌊estimatedAlive⌋ }

/-- Host-side spawn bookkeeping of GPUParticleSystem: the fractional emission
accumulator and the ring cursor. -/
structure SpawnHostState where
  emissionAccumulator : ℚ
  nextSpawnIndex : ℤ
deriving DecidableEq, Repr

/-- STEP 1 of GPUParticleSystem.update (lines 622-634): accumulate
rate * delta, flush the whole part to the GPU spawn queue, advance the ring
cursor modulo capacity.  Skipped entirely when the emission rate is not
positive. -/
def hostSpawnStep (maxParticles : ℤ) (emissionRate deltaTime : ℚ)
    (st : SpawnHostState) : SpawnHostState :=
  if 0 < emissionRate then
    let acc := st.emissionAccumulator + emissionRate * deltaTime
    let toSpawn := ⌊acc⌋
    let acc2 := acc - toSpawn
    if 0 < toSpawn then
      { emissionAccumulator := acc2,
        nextSpawnIndex := (st.nextSpawnIndex + toSpawn) % maxParticles }
    else
      { emissionAccumulator := acc2, nextSpawnIndex := st.nextSpawnIndex }
  else st

/-- Fold a sequence of update calls, each with its own (rate, delta). -/
def hostSpawnRun (maxParticles : ℤ) (steps : List (ℚ × ℚ))
    (st : SpawnHostState) : SpawnHostState :=
  steps.foldl (fun s rd => hostSpawnStep maxParticles rd.1 rd.2 s) st

/-- Well-formedness of the host spawn state: cursor inside the ring,
accumulator a proper fraction. -/
def SpawnHostInvariant (maxParticles : ℤ) (st : SpawnHostState) : Prop :=
  0 ≤ st.emissionAccumulator ∧ st.emissionAccumulator < 1 ∧
    0 ≤ st.nextSpawnIndex ∧ st.nextSpawnIndex < maxParticles

/-!  Helper lemmas. -/

lemma Vec3.add_eval (a b : Vec3) :
    a + b = ⟨a.x + b.x, a.y + b.y, a.z + b.z⟩ := rfl

lemma Vec3.smul_eval (s : ℚ) (v : Vec3) :
    s • v = ⟨s * v.x, s * v.y, s * v.z⟩ := rfl

lemma physicsStep_spawnTime (providers : List ParticleProvider)
    (gravity : Vec3) (drag delta time : ℚ) (i : ℤ) (p : Particle) :
    (physicsStep providers gravity drag delta time i p).spawnTime =
      p.spawnTime := rfl

lemma physicsStep_lifetime (providers : List ParticleProvider)
    (gravity : Vec3) (drag delta time : ℚ) (i : ℤ) (p : Particle) :
    (physicsStep providers gravity drag delta time i p).lifetime =
      p.lifetime := rfl

lemma updateSlot_spawnTime (providers : List ParticleProvider) (gravity : Vec3)
    (drag : ℚ) (u : SpawnUniforms) (hash : ℤ → ℚ) (time delta : ℚ)
    (N i : ℤ) (p : Particle) :
    (updateSlot providers gravity drag u hash time delta N i p).spawnTime =
      (spawnStep u hash time N i p).spawnTime := by
  simp only [updateSlot]
  split <;> rfl

lemma updateSlot_lifetime (providers : List ParticleProvider) (gravity : Vec3)
    (drag : ℚ) (u : SpawnUniforms) (hash : ℤ → ℚ) (time delta : ℚ)
    (N i : ℤ) (p : Particle) :
    (updateSlot providers gravity drag u hash time delta N i p).lifetime =
      (spawnStep u hash time N i p).lifetime := by
  simp only [updateSlot]
  split <;> rfl

lemma spawnStep_not_selected (u : SpawnUniforms) (hash : ℤ → ℚ) (time : ℚ)
    (N i : ℤ) (p : Particle)
    (h : spawnSelected N u.spawnOffset u.spawnCount i = false) :
    spawnStep u hash time N i p = p := by
  simp [spawnStep, h]

lemma spawnSelected_count_nonpos (N o c i : ℤ) (hN : 0 < N) (hc : c ≤ 0) :
    spawnSelected N o c i = false := by
  have h0 : 0 ≤ ((i - o) % 4294967296) % N := Int.emod_nonneg _ (by omega)
  simp only [spawnSelected, decide_eq_false_iff_not, not_lt]
  exact le_trans hc h0

/-!  Claim theorems: compute pipeline. -/

/-- C1: a slot is alive iff 0 ≤ currentTime − spawnTime < lifetime; the
compute pass evaluates exactly this predicate after the spawn step, on the
possibly just-written spawnTime/lifetime, so dead slots are left untouched by
the physics body and a slot spawned this frame with positive configured
lifetime is alive in the same pass. -/
theorem liveness_after_spawn (providers : List ParticleProvider)
    (gravity : Vec3) (drag : ℚ) (u : SpawnUniforms) (hash : ℤ → ℚ)
    (time delta : ℚ) (N i : ℤ) (p : Particle) :
    (isAlive time (spawnStep u hash time N i p) = true ↔
      0 ≤ time - (spawnStep u hash time N i p).spawnTime ∧
        time - (spawnStep u hash time N i p).spawnTime <
          (spawnStep u hash time N i p).lifetime) ∧
    (isAlive time (spawnStep u hash time N i p) = false →
      updateSlot providers gravity drag u hash time delta N i p =
        spawnStep u hash time N i p) ∧
    (spawnSelected N u.spawnOffset u.spawnCount i = true →
      0 < u.spawnLifetime →
      isAlive time (spawnStep u hash time N i p) = true ∧
        (spawnStep u hash time N i p).spawnTime = time ∧
        (spawnStep u hash time N i p).lifetime = u.spawnLifetime) := by
  refine ⟨?_, ?_, ?_⟩
  · simp [isAlive]
  · intro h
    simp [updateSlot, h]
  · intro hsel hlt
    refine ⟨?_, ?_, ?_⟩ <;> simp [spawnStep, hsel, isAlive, hlt, le_of_lt hlt]

/-- C1 witness: a concrete slot spawned at time 5 with lifetime 2 is alive in
the same pass and carries spawnTime 5. -/
theorem liveness_after_spawn_witness :
    spawnSelected 100 0 1 0 = true ∧ (0 : ℚ) < 2 ∧
      isAlive 5 (spawnStep ⟨1, 0, ⟨0, 3, 0⟩, ⟨0, 0, 0⟩, 2, ⟨1, 1, 1⟩⟩
        (fun _ => 0) 5 100 0 ⟨⟨0, 0, 0⟩, ⟨0, 0, 0⟩, -1000, 1⟩) = true ∧
      (spawnStep ⟨1, 0, ⟨0, 3, 0⟩, ⟨0, 0, 0⟩, 2, ⟨1, 1, 1⟩⟩ (fun _ => 0) 5 100
        0 ⟨⟨0, 0, 0⟩, ⟨0, 0, 0⟩, -1000, 1⟩).spawnTime = 5 := by
  have h := (liveness_after_spawn [] ⟨0, 0, 0⟩ 0
    ⟨1, 0, ⟨0, 3, 0⟩, ⟨0, 0, 0⟩, 2, ⟨1, 1, 1⟩⟩ (fun _ => 0) 5 1 100 0
    ⟨⟨0, 0, 0⟩, ⟨0, 0, 0⟩, -1000, 1⟩).2.2 (by decide) (by decide)
  exact ⟨by decide, by decide, h.1, h.2.1⟩

/-- C2: the claim fails on the code.  The shader computes the spawn-window
index in 32-bit unsigned arithmetic, ((i − o) mod 2^32) mod N, which equals
the claimed (i − o) mod N only when N divides 2^32.  At capacity 100,
offset 98, count 5 the claimed ring set is the slots (98+k) mod 100 for
k < 5, i.e. 98, 99, 0, 1, 2; but slot 0 is not selected (its wrapped index is
98) while slot 3, outside that set, is selected (wrapped index 1), and a
compute pass at time 7 leaves slot 0's spawnTime untouched even though the
claim marks it freshly spawned. -/
theorem ring_spawn_selection_diverges :
    (spawnSelected 100 98 5 0 = false ∧
      ∃ k : ℤ, 0 ≤ k ∧ k < 5 ∧ (98 + k) % 100 = 0) ∧
    (spawnSelected 100 98 5 3 = true ∧
      ¬ ∃ k : ℤ, 0 ≤ k ∧ k < 5 ∧ (98 + k) % 100 = 3) ∧
    (updateSlot [] ⟨0, 0, 0⟩ 0 ⟨5, 98, ⟨0, 3, 0⟩, ⟨0, 0, 0⟩, 2, ⟨1, 1, 1⟩⟩
        (fun _ => 0) 7 1 100 0
        ⟨⟨0, 0, 0⟩, ⟨0, 0, 0⟩, -1000, 1⟩).spawnTime = -1000 ∧
    (-1000 : ℚ) ≠ 7 := by
  refine ⟨⟨by decide, ⟨2, by decide⟩⟩, ⟨by decide, ?_⟩, ?_, by decide⟩
  · rintro ⟨k, hk0, hk5, hmod⟩
    omega
  · rw [updateSlot_spawnTime,
      spawnStep_not_selected _ _ _ _ _ _ (by decide)]

/-- C4: with no providers, one compute pass moves a live slot to
v = (v + gravity·delta)·(1 − drag·delta) and p = p + v·delta, and leaves dead
slots untouched (no spawn queued this frame). -/
theorem physics_integration_no_providers (gravity : Vec3) (drag : ℚ)
    (u : SpawnUniforms) (hash : ℤ → ℚ) (time delta : ℚ) (N i : ℤ)
    (p : Particle) (hN : 0 < N) (hcount : u.spawnCount = 0) :
    (isAlive time p = true →
      (updateSlot [] gravity drag u hash time delta N i p).vel =
        (1 - drag * delta) • (p.vel + delta • gravity) ∧
      (updateSlot [] gravity drag u hash time delta N i p).pos =
        p.pos + delta • ((1 - drag * delta) • (p.vel + delta • gravity))) ∧
    (isAlive time p = false →
      updateSlot [] gravity drag u hash time delta N i p = p) := by
  have hns : spawnSelected N u.spawnOffset u.spawnCount i = false := by
    rw [hcount]
    exact spawnSelected_count_nonpos N u.spawnOffset 0 i hN le_rfl
  have hsp : spawnStep u hash time N i p = p :=
    spawnStep_not_selected u hash time N i p hns
  constructor
  · intro halive
    simp only [updateSlot, hsp, halive, if_true]
    exact ⟨rfl, rfl⟩
  · intro hdead
    simp [updateSlot, hsp, hdead]

/-- C4 witness: gravity (0,−9.8,0), drag 0.1, delta 0.1 on a live slot with
zero velocity gives v = (0, −0.9702, 0) and p = (0, −0.09702, 0). -/
theorem physics_integration_no_providers_witness :
    (0 : ℤ) < 100 ∧
      isAlive 1 (⟨⟨0, 0, 0⟩, ⟨0, 0, 0⟩, 0, 10⟩ : Particle) = true ∧
      (updateSlot [] ⟨0, -49/5, 0⟩ (1/10)
        ⟨0, 0, ⟨0, 3, 0⟩, ⟨0, 0, 0⟩, 2, ⟨1, 1, 1⟩⟩ (fun _ => 0) 1 (1/10) 100 0
        ⟨⟨0, 0, 0⟩, ⟨0, 0, 0⟩, 0, 10⟩).vel = ⟨0, -4851/5000, 0⟩ ∧
      (updateSlot [] ⟨0, -49/5, 0⟩ (1/10)
        ⟨0, 0, ⟨0, 3, 0⟩, ⟨0, 0, 0⟩, 2, ⟨1, 1, 1⟩⟩ (fun _ => 0) 1 (1/10) 100 0
        ⟨⟨0, 0, 0⟩, ⟨0, 0, 0⟩, 0, 10⟩).pos = ⟨0, -4851/50000, 0⟩ := by
  have halive : isAlive 1 (⟨⟨0, 0, 0⟩, ⟨0, 0, 0⟩, 0, 10⟩ : Particle) = true := by
    simp [isAlive]
  have h := (physics_integration_no_providers ⟨0, -49/5, 0⟩ (1/10)
    ⟨0, 0, ⟨0, 3, 0⟩, ⟨0, 0, 0⟩, 2, ⟨1, 1, 1⟩⟩ (fun _ => 0) 1 (1/10) 100 0
    ⟨⟨0, 0, 0⟩, ⟨0, 0, 0⟩, 0, 10⟩ (by decide) rfl).1 halive
  refine ⟨by decide, halive, ?_, ?_⟩
  · rw [h.1]
    norm_num [Vec3.add_eval, Vec3.smul_eval, Vec3.mk.injEq]
  · rw [h.2]
    norm_num [Vec3.add_eval, Vec3.smul_eval, Vec3.mk.injEq]

/-- C5 counterexample to the claim as stated: two providers with priorities
10 and 20 whose velocity overrides are v1 = (5,0,0) and v2 = (1,0,0); on a
live slot with drag 0.1 and delta 0.1 the post-pass velocity is
(99/100, 0, 0), not v2, because the built-in drag is applied after the
overrides. -/
theorem provider_override_counterexample :
    isAlive 1 (⟨⟨0, 0, 0⟩, ⟨0, 0, 0⟩, 0, 10⟩ : Particle) = true ∧
    (updateSlot
        (addProvider (addProvider []
          ⟨"A", 10, none, some (fun _ => (⟨5, 0, 0⟩ : Vec3)), none⟩)
          ⟨"B", 20, none, some (fun _ => (⟨1, 0, 0⟩ : Vec3)), none⟩)
        ⟨0, -49/5, 0⟩ (1/10) ⟨0, 0, ⟨0, 3, 0⟩, ⟨0, 0, 0⟩, 2, ⟨1, 1, 1⟩⟩
        (fun _ => 0) 1 (1/10) 100 0
        ⟨⟨0, 0, 0⟩, ⟨0, 0, 0⟩, 0, 10⟩).vel ≠ ⟨1, 0, 0⟩ := by
  constructor
  · simp [isAlive]
  · norm_num [updateSlot, spawnStep, spawnSelected, isAlive, physicsStep,
      accumulateForces, applyVelocityModifiers, applyPositionModifiers,
      addProvider, sortByPriority, insertByPriority, Vec3.add_eval,
      Vec3.smul_eval, Vec3.mk.injEq]

/-- C5 (amended): with providers A (priority 10, velocity override v1) and
B (priority 20, velocity override v2) registered in that order, the pass
applies the overrides in ascending priority (= registration) order and the
later override overwrites the earlier one; the velocity observed after the
pass is v2 scaled by the built-in drag factor, (1 − drag·delta) • v2 — equal
to v2 exactly when drag·delta = 0. -/
theorem provider_override_order (v1 v2 gravity : Vec3) (drag : ℚ)
    (u : SpawnUniforms) (hash : ℤ → ℚ) (time delta : ℚ) (N i : ℤ)
    (p : Particle) (hN : 0 < N) (hcount : u.spawnCount = 0)
    (halive : isAlive time p = true) :
    addProvider (addProvider [] ⟨"A", 10, none, some (fun _ => v1), none⟩)
        ⟨"B", 20, none, some (fun _ => v2), none⟩ =
      [⟨"A", 10, none, some (fun _ => v1), none⟩,
        ⟨"B", 20, none, some (fun _ => v2), none⟩] ∧
    (updateSlot
        (addProvider (addProvider [] ⟨"A", 10, none, some (fun _ => v1), none⟩)
          ⟨"B", 20, none, some (fun _ => v2), none⟩)
        gravity drag u hash time delta N i p).vel =
      (1 - drag * delta) • v2 := by
  have hns : spawnSelected N u.spawnOffset u.spawnCount i = false := by
    rw [hcount]
    exact spawnSelected_count_nonpos N u.spawnOffset 0 i hN le_rfl
  have hsp : spawnStep u hash time N i p = p :=
    spawnStep_not_selected u hash time N i p hns
  constructor
  · norm_num [addProvider, sortByPriority, insertByPriority]
  · simp only [updateSlot, hsp, halive, if_true]
    norm_num [physicsStep, applyVelocityModifiers, addProvider,
      sortByPriority, insertByPriority]

/-- C5 witness for the amended claim: at v2 = (1,0,0), drag = 0.1,
delta = 0.1 on a live slot the post-pass velocity is (1 − 1/100) • (1,0,0). -/
theorem provider_override_order_witness :
    (0 : ℤ) < 100 ∧
      isAlive 1 (⟨⟨0, 0, 0⟩, ⟨0, 0, 0⟩, 0, 10⟩ : Particle) = true ∧
      (updateSlot
          (addProvider (addProvider []
            ⟨"A", 10, none, some (fun _ => (⟨5, 0, 0⟩ : Vec3)), none⟩)
            ⟨"B", 20, none, some (fun _ => (⟨1, 0, 0⟩ : Vec3)), none⟩)
          ⟨0, -49/5, 0⟩ (1/10) ⟨0, 0, ⟨0, 3, 0⟩, ⟨0, 0, 0⟩, 2, ⟨1, 1, 1⟩⟩
          (fun _ => 0) 1 (1/10) 100 0
          ⟨⟨0, 0, 0⟩, ⟨0, 0, 0⟩, 0, 10⟩).vel =
        ((1 : ℚ) - 1/10 * (1/10)) • (⟨1, 0, 0⟩ : Vec3) := by
  have halive : isAlive 1 (⟨⟨0, 0, 0⟩, ⟨0, 0, 0⟩, 0, 10⟩ : Particle) = true := by
    simp [isAlive]
  exact ⟨by decide, halive,
    (provider_override_order ⟨5, 0, 0⟩ ⟨1, 0, 0⟩ ⟨0, -49/5, 0⟩ (1/10)
      ⟨0, 0, ⟨0, 3, 0⟩, ⟨0, 0, 0⟩, 2, ⟨1, 1, 1⟩⟩ (fun _ => 0) 1 (1/10) 100 0
      ⟨⟨0, 0, 0⟩, ⟨0, 0, 0⟩, 0, 10⟩ (by decide) rfl halive).2⟩

/-- C9: the host-reported alive count is the readback-free estimate
floor(min(emissionRate × lifetime, maxParticles)) and the dead count is the
capacity minus it; at capacity 100, rate 50/s and lifetime 2 s the reported
counts are 100 alive and 0 dead. -/
theorem stats_estimate (emissionRate lifetime : ℚ) (maxParticles : ℤ)
    (h : lifetime ≠ 0) :
    (updateStats emissionRate lifetime maxParticles).aliveParticles =
      ⌊min (emissionRate * lifetime) ((maxParticles : ℚ))⌋ ∧
    (updateStats emissionRate lifetime maxParticles).deadParticles =
      maxParticles - ⌊min (emissionRate * lifetime) ((maxParticles : ℚ))⌋ ∧
    (updateStats 50 2 100).aliveParticles = 100 ∧
    (updateStats 50 2 100).deadParticles = 0 := by
  refine ⟨by simp [updateStats, h], by simp [updateStats, h], ?_, ?_⟩
  · norm_num [updateStats]
  · norm_num [updateStats]

/-- C9 witness: the scenario instance. -/
theorem stats_estimate_witness :
    (2 : ℚ) ≠ 0 ∧ (updateStats 50 2 100).aliveParticles = 100 ∧
      (updateStats 50 2 100).deadParticles = 0 := by
  have h := stats_estimate 50 2 100 (by norm_num)
  exact ⟨by norm_num, h.2.2.1, h.2.2.2⟩

/-- C10: on every update call with non-negative emission rate and delta the
host spawn state stays well formed: the accumulator keeps only the fractional
remainder in [0,1) after whole particles are flushed, and the ring cursor
stays in [0, maxParticles); this holds of the initial state, is preserved by
each call, and hence by any sequence of calls. -/
theorem host_spawn_state_wellformed (cap : ℤ) (hcap : 0 < cap) :
    SpawnHostInvariant cap ⟨0, 0⟩ ∧
    (∀ rate delta st, 0 ≤ rate → 0 ≤ delta → SpawnHostInvariant cap st →
      SpawnHostInvariant cap (hostSpawnStep cap rate delta st)) ∧
    (∀ steps st, (∀ rd ∈ steps, 0 ≤ rd.1 ∧ 0 ≤ rd.2) →
      SpawnHostInvariant cap st →
      SpawnHostInvariant cap (hostSpawnRun cap steps st)) := by
  have hstep : ∀ rate delta st, 0 ≤ rate → 0 ≤ delta →
      SpawnHostInvariant cap st →
      SpawnHostInvariant cap (hostSpawnStep cap rate delta st) := by
    intro rate delta st hr hd hst
    obtain ⟨ha0, ha1, hn0, hn1⟩ := hst
    unfold hostSpawnStep
    by_cases hpos : 0 < rate
    · have ha : (0 : ℚ) ≤ st.emissionAccumulator + rate * delta :=
        add_nonneg ha0 (mul_nonneg hr hd)
      have hf0 : (0 : ℚ) ≤ st.emissionAccumulator + rate * delta -
          ⌊st.emissionAccumulator + rate * delta⌋ := by
        rw [Int.self_sub_floor]
        exact Int.fract_nonneg _
      have hf1 : st.emissionAccumulator + rate * delta -
          ⌊st.emissionAccumulator + rate * delta⌋ < 1 := by
        rw [Int.self_sub_floor]
        exact Int.fract_lt_one _
      by_cases hts : 0 < ⌊st.emissionAccumulator + rate * delta⌋
      · simp only [hpos, if_true, hts, SpawnHostInvariant]
        exact ⟨hf0, hf1, Int.emod_nonneg _ (by omega),
          Int.emod_lt_of_pos _ hcap⟩
      · simp only [hpos, if_true, hts, if_false, SpawnHostInvariant]
        exact ⟨hf0, hf1, hn0, hn1⟩
    · simp only [hpos, if_false]
      exact ⟨ha0, ha1, hn0, hn1⟩
  refine ⟨⟨le_rfl, by norm_num, le_rfl, hcap⟩, hstep, ?_⟩
  intro steps
  induction steps with
  | nil =>
    intro st h hst
    simpa [hostSpawnRun] using hst
  | cons rd rest ih =>
    intro st h hst
    have h1 := h rd (by simp)
    have h2 : ∀ x ∈ rest, 0 ≤ x.1 ∧ 0 ≤ x.2 := fun x hx => h x (by simp [hx])
    have h3 := hstep rd.1 rd.2 st h1.1 h1.2 hst
    simpa [hostSpawnRun] using ih (hostSpawnStep cap rd.1 rd.2 st) h2 h3

/-!  Sorter helper lemmas. -/

lemma passList_succ (n : ℕ) :
    passList (n + 1) = passList n ++
      ((List.range (n + 1)).reverse).map (fun j => (2 ^ (n + 1), 2 ^ j)) := by
  simp [passList, List.range_succ, List.flatMap_append]

lemma length_passList_two (n : ℕ) :
    2 * (passList n).length = n * (n + 1) := by
  induction n with
  | zero => rfl
  | succ k ih =>
    rw [passList_succ, List.length_append, Nat.mul_add, ih]
    simp only [List.length_map, List.length_reverse, List.length_range]
    ring

lemma length_passList (n : ℕ) :
    (passList n).length = n * (n + 1) / 2 := by
  have h := length_passList_two n
  omega

lemma foldl_execPass_useA (dist : ℕ → SortKey) (P : ℕ) (l : List (ℕ × ℕ)) :
    ∀ st : SortState,
      (l.foldl (execPass dist P) st).useA =
        (st.useA == decide (l.length % 2 = 0)) := by
  induction l with
  | nil =>
    intro st
    simp
  | cons a t ih =>
    intro st
    rw [List.foldl_cons, ih]
    have h1 : (execPass dist P st a).useA = !st.useA := rfl
    rw [h1]
    have h2 : t.length % 2 = 0 ∨ t.length % 2 = 1 := by omega
    rcases h2 with h2 | h2
    · have h3 : (t.length + 1) % 2 = 1 := by omega
      cases st.useA <;> simp [h2, h3, List.length_cons]
    · have h3 : (t.length + 1) % 2 = 0 := by omega
      cases st.useA <;> simp [h2, h3, List.length_cons]

/-- C6: a full sort over padded size 2^numStages executes exactly
numStages·(numStages+1)/2 bitonic passes; the first pass reads A and writes
B, alternating each pass, and getSortedIndicesBuffer (A on even total count,
B on odd) names exactly the buffer written by the final pass. -/
theorem sorter_pass_count_and_parity (dist : ℕ → SortKey)
    (paddedSize numStages : ℕ) (st : SortState) (hA : st.useA = true)
    (hn : 0 < numStages) :
    (passList numStages).length = numStages * (numStages + 1) / 2 ∧
    getTotalPasses numStages = (passList numStages).length ∧
    writeTarget st = Buf.B ∧
    getSortedIndicesBuffer numStages =
      writeTarget
        (((passList numStages).dropLast).foldl (execPass dist paddedSize)
          st) := by
  have hlen := length_passList numStages
  have h2 := length_passList_two numStages
  have hmul : 1 * 2 ≤ numStages * (numStages + 1) :=
    Nat.mul_le_mul hn (by omega)
  have hpos : 0 < (passList numStages).length := by omega
  refine ⟨hlen, by rw [hlen]; rfl, by simp [writeTarget, hA], ?_⟩
  rw [writeTarget, foldl_execPass_useA, hA, List.length_dropLast]
  rw [getSortedIndicesBuffer, getTotalPasses, ← hlen]
  have h3 : (passList numStages).length % 2 = 0 ∨
      (passList numStages).length % 2 = 1 := by omega
  rcases h3 with h3 | h3
  · have h4 : ((passList numStages).length - 1) % 2 = 1 := by omega
    simp [h3, h4]
  · have h4 : ((passList numStages).length - 1) % 2 = 0 := by omega
    simp [h3, h4]

/-- C6 witness: two stages (padded size 4), three passes; the valid result is
in buffer B. -/
theorem sorter_pass_count_and_parity_witness :
    (initSortState 4 4).useA = true ∧ 0 < 2 ∧
      ((passList 2).length = 2 * (2 + 1) / 2 ∧
      getTotalPasses 2 = (passList 2).length ∧
      writeTarget (initSortState 4 4) = Buf.B ∧
      getSortedIndicesBuffer 2 =
        writeTarget
          (((passList 2).dropLast).foldl (execPass (fun _ => (⊤ : SortKey)) 4)
            (initSortState 4 4))) :=
  ⟨rfl, by decide,
    sorter_pass_count_and_parity (fun _ => (⊤ : SortKey)) 4 2
      (initSortState 4 4) rfl (by decide)⟩

/-!  C3: concrete evaluation of the full sort. -/

/-- Four particle positions whose squared camera distances (camera at the
origin) are 3, 1, 2, 0. -/
def c3Positions : List Vec3 := [⟨1, 1, 1⟩, ⟨1, 0, 0⟩, ⟨1, 1, 0⟩, ⟨0, 0, 0⟩]

/-- The distance-pass keys for those positions: negated squared distances
(−3, −1, −2, 0), with capacity = padded size 4 so there is no padding. -/
def c3Dist (i : ℕ) : SortKey :=
  distanceKey 4 (fun j => c3Positions.getD j ⟨0, 0, 0⟩) ⟨0, 0, 0⟩ i

/-- Literal table of the same keys, used to evaluate the sort. -/
def c3Table (i : ℕ) : SortKey :=
  if i = 0 then ((-3 : ℚ) : SortKey)
  else if i = 1 then ((-1 : ℚ) : SortKey)
  else if i = 2 then ((-2 : ℚ) : SortKey)
  else if i = 3 then ((0 : ℚ) : SortKey)
  else (⊤ : SortKey)

lemma c3Dist_eq_table : c3Dist = c3Table := by
  funext i
  match i with
  | 0 => norm_num [c3Dist, c3Table, distanceKey, c3Positions, Vec3.dot,
      Vec3.sub]
  | 1 => norm_num [c3Dist, c3Table, distanceKey, c3Positions, Vec3.dot,
      Vec3.sub]
  | 2 => norm_num [c3Dist, c3Table, distanceKey, c3Positions, Vec3.dot,
      Vec3.sub]
  | 3 => norm_num [c3Dist, c3Table, distanceKey, c3Positions, Vec3.dot,
      Vec3.sub]
  | (n + 4) => simp [c3Dist, c3Table, distanceKey]

lemma sortKeysMonotone_iff (l : List SortKey) :
    sortKeysMonotone l = true ↔ List.Chain' (fun a b => a ≤ b) l := by
  induction l with
  | nil => simp [sortKeysMonotone]
  | cons a t ih =>
    cases t with
    | nil => simp [sortKeysMonotone]
    | cons b rest =>
      rw [List.chain'_cons, ← ih]
      simp [sortKeysMonotone]

/-- C3: the claim fails on the code.  At capacity 4 (padded size 4, no
padding) with keys (−3, −1, −2, 0) the full bitonic sort leaves the valid
result buffer (B, by pass parity) holding [0, 1, 3, 2], whose key reading
(−3, −1, 0, −2) is not non-decreasing: the pass-direction bit is taken from
the position inside the stage section instead of the classic
(i AND stageSize) test, so each stage builds ascending-then-descending
mountains instead of monotone runs and the final stage cannot sort. -/
theorem bitonic_sort_unsorted_output :
    getSortedIndicesBuffer 2 = Buf.B ∧
    (execBitonicSort c3Dist 4 2 (initSortState 4 4)).bufB = [0, 1, 3, 2] ∧
    ¬ List.Chain' (fun a b => a ≤ b)
      (((execBitonicSort c3Dist 4 2 (initSortState 4 4)).bufB).map
        c3Dist) := by
  rw [c3Dist_eq_table]
  refine ⟨by decide, by decide, ?_⟩
  rw [← sortKeysMonotone_iff]
  decide

/-!  Write-multiplicity helper lemmas. -/

lemma mem_laneWriteTargets (s d i : ℕ) :
    d ∈ laneWriteTargets s i ↔
      (i = d ∨ (i = d ^^^ s ∧ d ^^^ s < d)) := by
  unfold laneWriteTargets
  by_cases h : i < i ^^^ s
  · simp only [h, if_true, List.mem_cons, List.mem_singleton,
      List.not_mem_nil, or_false]
    constructor
    · rintro (h1 | h1)
      · exact Or.inl h1.symm
      · refine Or.inr ⟨?_, ?_⟩
        · rw [h1, Nat.xor_cancel_right]
        · rw [h1, Nat.xor_cancel_right]
          exact h
    · rintro (h1 | ⟨h1, h2⟩)
      · exact Or.inl h1.symm
      · refine Or.inr ?_
        rw [h1, Nat.xor_cancel_right]
  · simp only [h, if_false, List.mem_singleton, List.not_mem_nil, or_false]
    constructor
    · intro h1
      exact Or.inl h1.symm
    · rintro (h1 | ⟨h1, h2⟩)
      · exact h1.symm
      · exfalso
        apply h
        have h3 : i ^^^ s = d := by rw [h1, Nat.xor_cancel_right]
        rw [h3, h1]
        exact h2

lemma slotWriterCount_eq (P s d : ℕ) (hd : d < P) :
    slotWriterCount P s d = if d ^^^ s < d then 2 else 1 := by
  unfold slotWriterCount
  by_cases hlt : d ^^^ s < d
  · rw [if_pos hlt]
    have hset : (Finset.range P).filter
        (fun i => d ∈ laneWriteTargets s i) = {d ^^^ s, d} := by
      ext i
      simp only [Finset.mem_filter, Finset.mem_range, mem_laneWriteTargets,
        Finset.mem_insert, Finset.mem_singleton]
      constructor
      · rintro ⟨h1, h2 | ⟨h2, h3⟩⟩
        · exact Or.inr h2
        · exact Or.inl h2
      · rintro (h1 | h1)
        · exact ⟨by omega, Or.inr ⟨h1, hlt⟩⟩
        · exact ⟨by omega, Or.inl h1⟩
    rw [hset]
    rw [Finset.card_insert_of_not_mem (by simp [Nat.ne_of_lt hlt])]
    simp
  · rw [if_neg hlt]
    have hset : (Finset.range P).filter
        (fun i => d ∈ laneWriteTargets s i) = {d} := by
      ext i
      simp only [Finset.mem_filter, Finset.mem_range, mem_laneWriteTargets,
        Finset.mem_singleton]
      constructor
      · rintro ⟨h1, h2 | ⟨h2, h3⟩⟩
        · exact h2
        · exact absurd h3 hlt
      · intro h1
        exact ⟨by omega, Or.inl h1⟩
    rw [hset]
    simp

/-- C7 counterexample to the claim as stated: in a pass with stepSize 1 over
padded size 2, destination slot 1 is written by two lanes (lane 0 writes both
slots of the pair, lane 1 copy-through-writes its own slot), not exactly
one. -/
theorem single_writer_counterexample :
    slotWriterCount 2 1 1 = 2 ∧ slotWriterCount 2 1 1 ≠ 1 := by
  constructor <;> decide

/-- C7 (amended): in each bitonic pass, a destination slot d is written by
exactly one lane when d is the lower side of its pair (d XOR stepSize > d)
and by exactly two lanes when it is the higher side (its own copy-through
write plus the comparing lower lane's partner write); each pass reads only
the ping-pong buffer selected by useA, leaves that buffer unchanged, writes
only the opposite buffer as a function of the read buffer, and toggles the
flag. -/
theorem pass_write_multiplicity (paddedSize stepSize d : ℕ)
    (hd : d < paddedSize) :
    (slotWriterCount paddedSize stepSize d =
      if d ^^^ stepSize < d then 2 else 1) ∧
    (∀ (dist : ℕ → SortKey) (st : SortState) (pass : ℕ × ℕ),
      (execPass dist paddedSize st pass).useA = !st.useA ∧
      (st.useA = true → (execPass dist paddedSize st pass).bufA = st.bufA ∧
        (execPass dist paddedSize st pass).bufB =
          bitonicPassFn dist pass.1 pass.2 paddedSize st.bufA) ∧
      (st.useA = false → (execPass dist paddedSize st pass).bufB = st.bufB ∧
        (execPass dist paddedSize st pass).bufA =
          bitonicPassFn dist pass.1 pass.2 paddedSize st.bufB)) := by
  refine ⟨slotWriterCount_eq paddedSize stepSize d hd, ?_⟩
  intro dist st pass
  refine ⟨rfl, ?_, ?_⟩ <;> intro h <;> simp [execPass, h]

/-- C7 witness for the amended claim at paddedSize 2, stepSize 1, slot 0. -/
theorem pass_write_multiplicity_witness :
    (0 : ℕ) < 2 ∧
      ((slotWriterCount 2 1 0 = if 0 ^^^ 1 < 0 then 2 else 1) ∧
      (∀ (dist : ℕ → SortKey) (st : SortState) (pass : ℕ × ℕ),
        (execPass dist 2 st pass).useA = !st.useA ∧
        (st.useA = true → (execPass dist 2 st pass).bufA = st.bufA ∧
          (execPass dist 2 st pass).bufB =
            bitonicPassFn dist pass.1 pass.2 2 st.bufA) ∧
        (st.useA = false → (execPass dist 2 st pass).bufB = st.bufB ∧
          (execPass dist 2 st pass).bufA =
            bitonicPassFn dist pass.1 pass.2 2 st.bufB))) :=
  ⟨by decide, pass_write_multiplicity 2 1 0 (by decide)⟩

/-!  Trail helper lemmas. -/

lemma trailTicks_head (s : ℕ) (hs : 0 < s) (ps : List Vec3) :
    ∀ st : TrailState, st.head < s →
      (trailTicks s ps st).head = (st.head + ps.length) % s := by
  induction ps with
  | nil =>
    intro st hh
    simp [trailTicks, Nat.mod_eq_of_lt hh]
  | cons p rest ih =>
    intro st hh
    have h1 : (trailTick s p st).head = (st.head + 1) % s := rfl
    have h2 : (trailTick s p st).head < s := by
      rw [h1]
      exact Nat.mod_lt _ hs
    have h3 : (trailTicks s (p :: rest) st).head =
        (trailTicks s rest (trailTick s p st)).head := rfl
    rw [h3, ih (trailTick s p st) h2, h1, Nat.mod_add_mod,
      List.length_cons]
    congr 1
    omega

lemma trailWriteTargets_eq (s : ℕ) (ps : List Vec3) :
    ∀ st : TrailState,
      trailWriteTargets s ps st =
        (List.range ps.length).map (fun j => (st.head + j + 1) % s) := by
  induction ps with
  | nil =>
    intro st
    rfl
  | cons p rest ih =>
    intro st
    simp only [trailWriteTargets, ih]
    have hh : (trailTick s p st).head = (st.head + 1) % s := rfl
    rw [hh, List.length_cons, List.range_succ_eq_map, List.map_cons,
      List.map_map]
    congr 1
    apply List.map_congr_left
    intro j hj
    simp only [Function.comp_apply, Nat.succ_eq_add_one]
    rw [Nat.add_assoc ((st.head + 1) % s) j 1, Nat.mod_add_mod]
    congr 1
    omega

lemma trail_count_zero (s : ℕ) (hs : 2 ≤ s) :
    ((List.range (s + 1)).map (fun j => (j + 1) % s)).count 0 = 1 := by
  obtain ⟨t, rfl⟩ : ∃ t, s = t + 2 := ⟨s - 2, by omega⟩
  have hr : List.range (t + 2 + 1) =
      ((List.range t ++ [t]) ++ [t + 1]) ++ [t + 2] := by
    rw [← List.range_succ, ← List.range_succ, ← List.range_succ]
  rw [hr]
  simp only [List.map_append, List.count_append, List.map_cons, List.map_nil]
  have c0 : ((List.range t).map (fun j => (j + 1) % (t + 2))).count 0 = 0 := by
    rw [List.count_eq_zero]
    simp only [List.mem_map, List.mem_range, not_exists]
    intro j
    rintro ⟨hj, hmod⟩
    rw [Nat.mod_eq_of_lt (by omega)] at hmod
    omega
  have c1 : ((t : ℕ) + 1) % (t + 2) = t + 1 := Nat.mod_eq_of_lt (by omega)
  have c2 : ((t : ℕ) + 1 + 1) % (t + 2) = 0 := by
    rw [show t + 1 + 1 = t + 2 from rfl, Nat.mod_self]
  have c3 : ((t : ℕ) + 2 + 1) % (t + 2) = 1 := by
    rw [show t + 2 + 1 = (t + 2) + 1 from rfl, Nat.add_mod_left]
    exact Nat.mod_eq_of_lt (by omega)
  rw [c0, c1, c2, c3]
  simp

/-- C8 (amended): each sampling tick writes the particle position at ring
slot (head+1) mod segments, leaves every other slot unchanged, and advances
head to that slot; hence head returns to its starting value after exactly
`segments` ticks (after segments+1 ticks it sits one past its start), and
with starting head 0 the slot at ring position 0 is overwritten exactly once
during segments+1 ticks. -/
theorem trail_ring_semantics (segments : ℕ) (st : TrailState) (pos : Vec3)
    (ps : List Vec3) (hs : 2 ≤ segments) :
    ((trailTick segments pos st).head = (st.head + 1) % segments ∧
      (trailTick segments pos st).ring ((st.head + 1) % segments) = pos ∧
      (∀ j, j ≠ (st.head + 1) % segments →
        (trailTick segments pos st).ring j = st.ring j)) ∧
    (st.head < segments → ps.length = segments →
      (trailTicks segments ps st).head = st.head) ∧
    (st.head < segments → ps.length = segments + 1 →
      (trailTicks segments ps st).head = (st.head + 1) % segments) ∧
    (st.head = 0 → ps.length = segments + 1 →
      (trailWriteTargets segments ps st).count 0 = 1) := by
  have hs0 : 0 < segments := by omega
  refine ⟨⟨rfl, by simp [trailTick], ?_⟩, ?_, ?_, ?_⟩
  · intro j hj
    simp [trailTick, hj]
  · intro hh hlen
    rw [trailTicks_head segments hs0 ps st hh, hlen, Nat.add_mod_right]
    exact Nat.mod_eq_of_lt hh
  · intro hh hlen
    rw [trailTicks_head segments hs0 ps st hh, hlen]
    have h1 : st.head + (segments + 1) = st.head + 1 + segments := by omega
    rw [h1, Nat.add_mod_right]
  · intro hh hlen
    rw [trailWriteTargets_eq segments ps st, hh, hlen]
    have h1 : (fun j => (0 + j + 1) % segments) =
        (fun j => (j + 1) % segments) := by
      funext j
      rw [Nat.zero_add]
    rw [h1]
    exact trail_count_zero segments hs

/-- C8 counterexample to the claim as stated: with segments = 3 and head
starting at 0, sampling segments+1 = 4 times leaves head at 1, not back at
its starting value 0. -/
theorem trail_ring_wrap_counterexample :
    (trailTicks 3 [⟨0, 0, 0⟩, ⟨0, 0, 0⟩, ⟨0, 0, 0⟩, ⟨0, 0, 0⟩]
      ⟨0, fun _ => ⟨0, 0, 0⟩⟩).head = 1 ∧ (1 : ℕ) ≠ 0 :=
  ⟨rfl, by decide⟩

/-- C8 witness for the amended claim at segments 3, head 0, four ticks. -/
theorem trail_ring_semantics_witness :
    2 ≤ 3 ∧
      (((trailTick 3 (⟨0, 0, 0⟩ : Vec3) ⟨0, fun _ => ⟨0, 0, 0⟩⟩).head =
          (0 + 1) % 3 ∧
        (trailTick 3 (⟨0, 0, 0⟩ : Vec3)
          ⟨0, fun _ => ⟨0, 0, 0⟩⟩).ring ((0 + 1) % 3) = ⟨0, 0, 0⟩ ∧
        (∀ j, j ≠ (0 + 1) % 3 →
          (trailTick 3 (⟨0, 0, 0⟩ : Vec3)
            ⟨0, fun _ => ⟨0, 0, 0⟩⟩).ring j = ⟨0, 0, 0⟩)) ∧
      ((0 : ℕ) < 3 →
        [(⟨0, 0, 0⟩ : Vec3), ⟨0, 0, 0⟩, ⟨0, 0, 0⟩, ⟨0, 0, 0⟩].length = 3 →
        (trailTicks 3 [⟨0, 0, 0⟩, ⟨0, 0, 0⟩, ⟨0, 0, 0⟩, ⟨0, 0, 0⟩]
          ⟨0, fun _ => ⟨0, 0, 0⟩⟩).head = 0) ∧
      ((0 : ℕ) < 3 →
        [(⟨0, 0, 0⟩ : Vec3), ⟨0, 0, 0⟩, ⟨0, 0, 0⟩, ⟨0, 0, 0⟩].length = 3 + 1 →
        (trailTicks 3 [⟨0, 0, 0⟩, ⟨0, 0, 0⟩, ⟨0, 0, 0⟩, ⟨0, 0, 0⟩]
          ⟨0, fun _ => ⟨0, 0, 0⟩⟩).head = (0 + 1) % 3) ∧
      ((0 : ℕ) = 0 →
        [(⟨0, 0, 0⟩ : Vec3), ⟨0, 0, 0⟩, ⟨0, 0, 0⟩, ⟨0, 0, 0⟩].length = 3 + 1 →
        (trailWriteTargets 3 [⟨0, 0, 0⟩, ⟨0, 0, 0⟩, ⟨0, 0, 0⟩, ⟨0, 0, 0⟩]
          ⟨0, fun _ => ⟨0, 0, 0⟩⟩).count 0 = 1)) :=
  ⟨by decide,
    trail_ring_semantics 3 ⟨0, fun _ => ⟨0, 0, 0⟩⟩ ⟨0, 0, 0⟩
      [⟨0, 0, 0⟩, ⟨0, 0, 0⟩, ⟨0, 0, 0⟩, ⟨0, 0, 0⟩] (by decide)⟩

/-- C10 witness: capacity 10. -/
theorem host_spawn_state_wellformed_witness :
    (0 : ℤ) < 10 ∧
      (SpawnHostInvariant 10 ⟨0, 0⟩ ∧
      (∀ rate delta st, 0 ≤ rate → 0 ≤ delta → SpawnHostInvariant 10 st →
        SpawnHostInvariant 10 (hostSpawnStep 10 rate delta st)) ∧
      (∀ steps st, (∀ rd ∈ steps, 0 ≤ rd.1 ∧ 0 ≤ rd.2) →
        SpawnHostInvariant 10 st →
        SpawnHostInvariant 10 (hostSpawnRun 10 steps st))) :=
  ⟨by decide, host_spawn_state_wellformed 10 (by decide)⟩
